import Mathlib

/-!
Verification of the expense-tracking pipeline of the repository
WhereIsMyMoneyGoing-: transaction model, anomaly detectors, categorizer,
line parser, duplicate finder and serialization, embedded shallowly.
Python floats are modelled as exact rationals, Python datetimes as a
record of calendar fields.
-/

/-- Calendar date-time mirroring Python's datetime: year, month, day,
hour, minute, second, microsecond. -/
structure Datetime where
  year : Nat
  month : Nat
  day : Nat
  hour : Nat := 0
  minute : Nat := 0
  second : Nat := 0
  microsecond : Nat := 0
deriving DecidableEq, Repr

/-- Validity ranges enforced by Python's datetime constructor
(MINYEAR = 1, MAXYEAR = 9999). -/
def Datetime.Valid (d : Datetime) : Prop :=
  1 ≤ d.year ∧ d.year ≤ 9999 ∧ 1 ≤ d.month ∧ d.month ≤ 12 ∧ 1 ≤ d.day ∧ d.day ≤ 31 ∧
  d.hour ≤ 23 ∧ d.minute ≤ 59 ∧ d.second ≤ 59 ∧ d.microsecond ≤ 999999

instance (d : Datetime) : Decidable d.Valid := by
  unfold Datetime.Valid; infer_instance

/-- Leap-year test of the proleptic Gregorian calendar (as in Python's
calendar arithmetic underlying datetime.toordinal). -/
def isLeap (y : Nat) : Bool :=
  y % 4 = 0 && (y % 100 ≠ 0 || y % 400 = 0)

/-- Days in the years before year y (Python's _days_before_year). -/
def daysBeforeYear (y : Nat) : Nat :=
  365 * (y - 1) + (y - 1) / 4 + (y - 1) / 400 - (y - 1) / 100

/-- Cumulative days before each month in a non-leap year
(Python's _days_before_month table). -/
def daysBeforeMonth (leap : Bool) (m : Nat) : Nat :=
  [0, 31, 59, 90, 120, 151, 181, 212, 243, 273, 304, 334].getD (m - 1) 0 +
    (if leap && 2 < m then 1 else 0)

/-- Proleptic Gregorian ordinal of the date part, as datetime.toordinal. -/
def Datetime.toOrdinal (d : Datetime) : Nat :=
  daysBeforeYear d.year + daysBeforeMonth (isLeap d.year) d.month + d.day

/-- Whole value of a datetime in microseconds; datetime comparison and
subtraction in Python agree with comparison and subtraction of this
quantity. -/
def Datetime.toMicros (d : Datetime) : Int :=
  ((((d.toOrdinal * 24 + d.hour) * 60 + d.minute) * 60 + d.second : Nat) : Int) * 1000000
    + (d.microsecond : Int)

/-- Microseconds in a day, the normalization unit of Python's timedelta. -/
def microsPerDay : Int := 86400000000

/-- The .days attribute of the timedelta b - a in Python: floor division
of the microsecond difference by a day. -/
def dateDiffDays (b a : Datetime) : Int :=
  Int.fdiv (b.toMicros - a.toMicros) microsPerDay

/-- Transaction record of src/expense_tracker/models.py (dataclass
Transaction): date, description, amount, category, is_anomaly. Amounts
are Python floats, modelled as rationals. -/
structure Transaction where
  date : Datetime
  description : String
  amount : ℚ
  category : String := "Uncategorized"
  is_anomaly : Bool := false
deriving DecidableEq, Repr

/-- Per-category baseline entry stored in AnomalyDetector.baseline_stats:
mean, std, median, q1, q3 of the absolute amounts of the category
(src/expense_tracker/anomaly_detector.py, calculate_baseline_stats). -/
structure CategoryStats where
  mean : ℚ
  std : ℚ
  median : ℚ
  q1 : ℚ
  q3 : ℚ
deriving DecidableEq, Repr

/-- Dictionary lookup baseline_stats[category], as an association list in
insertion order. -/
def lookup_stats (baseline : List (String × CategoryStats)) (cat : String) :
    Option CategoryStats :=
  (baseline.find? (fun p => p.1 == cat)).map (fun p => p.2)

/-- Z-score branch of detect_statistical_anomalies: applies only when the
category std is positive, and fires when the absolute z-score of the
(absolute) amount exceeds 3. -/
def z_flag (st : CategoryStats) (amount : ℚ) : Bool :=
  decide (0 < st.std) && decide (3 < |(amount - st.mean) / st.std|)

/-- IQR branch of detect_statistical_anomalies: fires when the (absolute)
amount falls outside [q1 - 1.5 * iqr, q3 + 1.5 * iqr]. -/
def iqr_flag (st : CategoryStats) (amount : ℚ) : Bool :=
  decide (amount < st.q1 - 1.5 * (st.q3 - st.q1)) ||
    decide (st.q3 + 1.5 * (st.q3 - st.q1) < amount)

/-- Per-transaction decision of detect_statistical_anomalies: the z-score
test first (with continue on success), then the IQR test. -/
def stat_flag (st : CategoryStats) (amount : ℚ) : Bool :=
  if z_flag st amount then true else iqr_flag st amount

/-- AnomalyDetector.detect_statistical_anomalies
(src/expense_tracker/anomaly_detector.py lines 59-100), for a precomputed
baseline passed explicitly: a transaction whose category has no baseline
entry is skipped; otherwise it is flagged (is_anomaly set true, in place)
and appended to the returned anomaly list when stat_flag fires on its
absolute amount. The source recomputes baseline_stats from the input when
the stored dict is empty; the claims concern the precomputed-baseline
case, so the baseline is a parameter here. Returns the updated
transaction list together with the positions of the appended anomalies
(the Python list holds references to the mutated objects; positions
identify them). -/
def detect_statistical_anomalies (baseline : List (String × CategoryStats))
    (ts : List Transaction) : List Transaction × List Nat :=
  (ts.map (fun t =>
      match lookup_stats baseline t.category with
      | none => t
      | some st => if stat_flag st |t.amount| then { t with is_anomaly := true } else t),
   (ts.enum.filter (fun p =>
      match lookup_stats baseline p.2.category with
      | none => false
      | some st => stat_flag st |p.2.amount|)).map (fun p => p.1))

/-- Membership in the statistical anomaly list holds exactly at positions
whose category has a baseline entry and whose absolute amount trips
stat_flag. -/
theorem mem_detect_statistical_iff (baseline : List (String × CategoryStats))
    (ts : List Transaction) (i : Nat) :
    i ∈ (detect_statistical_anomalies baseline ts).2 ↔
      ∃ t, ts[i]? = some t ∧ ∃ st, lookup_stats baseline t.category = some st ∧
        stat_flag st |t.amount| = true := by
  unfold detect_statistical_anomalies
  simp only [List.mem_map, List.mem_filter]
  constructor
  · rintro ⟨⟨j, t⟩, ⟨hmem, hflag⟩, rfl⟩
    refine ⟨t, ?_, ?_⟩
    · have : (j, t) ∈ ts.enum := hmem
      rw [List.mem_iff_getElem?] at this
      obtain ⟨k, hk⟩ := this
      rw [List.getElem?_enum] at hk
      cases h : ts[k]? with
      | none => rw [h] at hk; simp at hk
      | some u =>
        rw [h] at hk
        simp only [Option.map_some', Option.some.injEq, Prod.mk.injEq] at hk
        obtain ⟨rfl, rfl⟩ := hk
        exact h
    · revert hflag
      cases h : lookup_stats baseline t.category with
      | none => intro hflag; simp at hflag
      | some st => intro hflag; exact ⟨st, rfl, hflag⟩
  · rintro ⟨t, ht, st, hst, hflag⟩
    refine ⟨(i, t), ⟨?_, ?_⟩, rfl⟩
    · rw [List.mem_iff_getElem?]
      exact ⟨i, by rw [List.getElem?_enum, ht]; rfl⟩
    · simp only [hst, hflag]

/-- Positions outside the list never appear in the statistical anomaly
list, and entries of the updated list are the pointwise update of the
input. -/
theorem detect_statistical_getElem? (baseline : List (String × CategoryStats))
    (ts : List Transaction) (i : Nat) :
    ((detect_statistical_anomalies baseline ts).1)[i]? = (ts[i]?).map (fun t =>
      match lookup_stats baseline t.category with
      | none => t
      | some st => if stat_flag st |t.amount| then { t with is_anomaly := true } else t) := by
  unfold detect_statistical_anomalies
  rw [List.getElem?_map]

/-- Boolean decision of the statistical detector, rewritten as the
disjunction of the z-score rule (guarded by a nonzero standard deviation)
and the IQR rule. -/
theorem stat_flag_iff (st : CategoryStats) (a : ℚ) :
    stat_flag st a = true ↔
      ((0 < st.std ∧ 3 < |a - st.mean| / st.std) ∨
        (a < st.q1 - 1.5 * (st.q3 - st.q1) ∨ st.q3 + 1.5 * (st.q3 - st.q1) < a)) := by
  unfold stat_flag z_flag iqr_flag
  by_cases h : 0 < st.std
  · rw [abs_div, abs_of_pos h]
    by_cases h3 : 3 < |a - st.mean| / st.std
    · simp [h, h3]
    · simp [h, h3]
  · simp [h]

/-- C1: for every transaction list and precomputed per-category baseline,
the statistical detector flags a transaction (appends it to its anomaly
list) exactly when its absolute amount's z-score against its category
baseline exceeds 3 (the z-score test requiring positive standard
deviation) or its absolute amount lies outside
[Q1 - 1.5 * IQR, Q3 + 1.5 * IQR]; in particular for a baseline with mean
50 and std 10, amount 81 (z-score 3.1) is flagged whatever the quartiles,
and amount 79 (z-score 2.9) is not flagged by the z-score test. -/
theorem claim_statistical_detector_rule :
    (∀ (baseline : List (String × CategoryStats)) (ts : List Transaction) (i : Nat),
      i ∈ (detect_statistical_anomalies baseline ts).2 ↔
        ∃ t, ts[i]? = some t ∧ ∃ st, lookup_stats baseline t.category = some st ∧
          ((0 < st.std ∧ 3 < |(|t.amount| - st.mean)| / st.std) ∨
            (|t.amount| < st.q1 - 1.5 * (st.q3 - st.q1) ∨
              st.q3 + 1.5 * (st.q3 - st.q1) < |t.amount|))) ∧
    (∀ st : CategoryStats, st.mean = 50 → st.std = 10 →
      stat_flag st 81 = true ∧ z_flag st 81 = true ∧ z_flag st 79 = false) := by
  constructor
  · intro baseline ts i
    rw [mem_detect_statistical_iff]
    constructor
    · rintro ⟨t, ht, st, hst, hflag⟩
      exact ⟨t, ht, st, hst, (stat_flag_iff st _).mp hflag⟩
    · rintro ⟨t, ht, st, hst, hcond⟩
      exact ⟨t, ht, st, hst, (stat_flag_iff st _).mpr hcond⟩
  · intro st hm hs
    have hz81 : z_flag st 81 = true := by
      unfold z_flag
      rw [hm, hs]
      norm_num
      rw [abs_of_pos (by norm_num : (0 : ℚ) < 31 / 10)]
      norm_num
    refine ⟨?_, hz81, ?_⟩
    · unfold stat_flag
      rw [hz81]
      simp
    · unfold z_flag
      rw [hm, hs]
      norm_num
      rw [abs_of_pos (by norm_num : (0 : ℚ) < 29 / 10)]
      norm_num

/-- C9: a transaction whose category is absent from the precomputed
baseline is skipped by the statistical detector: it is never flagged (its
entry in the updated list is unchanged) and never appears in the returned
anomaly list, whatever its amount. -/
theorem claim_unknown_category_skipped (baseline : List (String × CategoryStats))
    (ts : List Transaction) (i : Nat) (t : Transaction)
    (h1 : ts[i]? = some t) (h2 : lookup_stats baseline t.category = none) :
    i ∉ (detect_statistical_anomalies baseline ts).2 ∧
      ((detect_statistical_anomalies baseline ts).1)[i]? = some t := by
  constructor
  · intro hmem
    rw [mem_detect_statistical_iff] at hmem
    obtain ⟨u, hu, st, hst, _⟩ := hmem
    rw [h1] at hu
    cases hu
    rw [h2] at hst
    cases hst
  · rw [detect_statistical_getElem?, h1, Option.map_some', h2]

/-- Concrete baseline entry with a degenerate interquartile range
(q1 = q3 = 50) and zero standard deviation, as produced for a category
with a single observed amount of 50. -/
def degenerate_stats : CategoryStats := ⟨50, 0, 50, 50, 50⟩

/-- Sample transaction of amount 100 in the degenerate category. -/
def degenerate_tx : Transaction :=
  { date := ⟨2024, 1, 1, 0, 0, 0, 0⟩, description := "m", amount := 100,
    category := "Misc", is_anomaly := false }

/-- C2 counterexample: for the degenerate baseline q1 = q3 = 50 (std 0, so
the z-score test is skipped), the IQR rule DOES flag amount 100: the
bounds collapse to the single point [50, 50] and the detector reports the
transaction, contradicting the claim that no amount is flagged. -/
theorem claim_degenerate_iqr_counterexample :
    z_flag degenerate_stats 100 = false ∧ iqr_flag degenerate_stats 100 = true ∧
      (detect_statistical_anomalies [("Misc", degenerate_stats)] [degenerate_tx]).2 = [0] := by
  refine ⟨by norm_num [z_flag, degenerate_stats], by norm_num [iqr_flag, degenerate_stats], ?_⟩
  norm_num [detect_statistical_anomalies, lookup_stats, degenerate_tx, stat_flag,
    z_flag, iqr_flag, degenerate_stats, List.enum, List.enumFrom, List.filter]

/-- With Q1 equal to Q3 the IQR bounds collapse to the single point Q1,
so the IQR test holds exactly for amounts different from Q1. -/
theorem iqr_flag_degenerate_iff (st : CategoryStats) (a : ℚ) (h : st.q1 = st.q3) :
    iqr_flag st a = true ↔ a ≠ st.q1 := by
  unfold iqr_flag
  rw [← h]
  have : st.q1 - 1.5 * (st.q1 - st.q1) = st.q1 := by ring
  rw [this]
  have : st.q1 + 1.5 * (st.q1 - st.q1) = st.q1 := by ring
  rw [this]
  rw [Bool.or_eq_true, decide_eq_true_eq, decide_eq_true_eq]
  exact lt_or_lt_iff_ne

/-- C2 amended: for a category whose baseline has Q1 equal to Q3, the IQR
bounds collapse to the single point Q1, so the IQR rule flags exactly the
transactions whose tested amount differs from Q1 (rather than flagging no
transaction); consequently, when the z-score test is also skipped (the
zero-variance baseline of such a degenerate category), the statistical
detector reports a transaction of that category exactly when its
absolute amount differs from Q1. -/
theorem claim_degenerate_iqr_amended :
    (∀ (st : CategoryStats) (a : ℚ), st.q1 = st.q3 →
      (iqr_flag st a = true ↔ a ≠ st.q1)) ∧
    (∀ (baseline : List (String × CategoryStats)) (ts : List Transaction)
      (i : Nat) (t : Transaction) (st : CategoryStats),
      ts[i]? = some t → lookup_stats baseline t.category = some st →
      st.q1 = st.q3 → st.std = 0 →
      (i ∈ (detect_statistical_anomalies baseline ts).2 ↔ |t.amount| ≠ st.q1)) := by
  refine ⟨iqr_flag_degenerate_iff, ?_⟩
  intro baseline ts i t st hget hlook hq hstd
  have hsf : ∀ a : ℚ, stat_flag st a = iqr_flag st a := by
    intro a
    unfold stat_flag z_flag
    rw [hstd]
    simp
  rw [mem_detect_statistical_iff]
  constructor
  · rintro ⟨u, hu, st2, hst2, hflag⟩
    rw [hget] at hu
    obtain rfl : t = u := Option.some.inj hu
    rw [hlook] at hst2
    obtain rfl : st = st2 := Option.some.inj hst2
    rw [hsf] at hflag
    exact (iqr_flag_degenerate_iff st _ hq).mp hflag
  · intro hne
    exact ⟨t, hget, st, hlook, by
      rw [hsf]
      exact (iqr_flag_degenerate_iff st _ hq).mpr hne⟩

/-- Witness for C2's amended theorem at the degenerate baseline: in a
category whose baseline has Q1 = Q3 = 50 and std 0, the transaction of
absolute amount 100 is reported exactly because 100 differs from 50. -/
theorem claim_degenerate_iqr_amended_witness :
    0 ∈ (detect_statistical_anomalies [("Misc", degenerate_stats)] [degenerate_tx]).2 ↔
      |degenerate_tx.amount| ≠ degenerate_stats.q1 :=
  claim_degenerate_iqr_amended.2 [("Misc", degenerate_stats)] [degenerate_tx] 0
    degenerate_tx degenerate_stats rfl rfl rfl rfl

/-- Witness for C9 at a concrete input: category "Fuel" has no entry in a
baseline listing only "Groceries". -/
theorem claim_unknown_category_skipped_witness :
    0 ∉ (detect_statistical_anomalies [("Groceries", degenerate_stats)]
        [{ degenerate_tx with category := "Fuel" }]).2 ∧
      ((detect_statistical_anomalies [("Groceries", degenerate_stats)]
        [{ degenerate_tx with category := "Fuel" }]).1)[0]? =
        some { degenerate_tx with category := "Fuel" } :=
  claim_unknown_category_skipped _ _ 0 _ rfl rfl

/-- Entry of ts at position i with its is_anomaly flag set, used to model
the in-place mutation transactions[i].is_anomaly = True. -/
def set_flag : List Transaction → Nat → List Transaction
  | [], _ => []
  | t :: ts, 0 => { t with is_anomaly := true } :: ts
  | t :: ts, i + 1 => t :: set_flag ts i

/-- AnomalyDetector.detect_ml_anomalies
(src/expense_tracker/anomaly_detector.py lines 102-142). The scikit-learn
StandardScaler and IsolationForest are external library collaborators;
their composed fitted decision (feature scaling followed by fit_predict,
with prediction -1 meaning outlier) is abstracted as the boolean oracle
predict, a function of the whole transaction list and the position.
With fewer than 10 transactions the method returns the empty list and
touches nothing; otherwise every position labelled an outlier has its
is_anomaly flag set and is appended to the returned list. -/
def detect_ml_anomalies (predict : List Transaction → Nat → Bool)
    (ts : List Transaction) : List Transaction × List Nat :=
  if ts.length < 10 then (ts, [])
  else
    (ts.enum.map (fun p =>
        if predict ts p.1 then { p.2 with is_anomaly := true } else p.2),
     (ts.enum.filter (fun p => predict ts p.1)).map (fun p => p.1))

/-- C6: with fewer than 10 transactions the unsupervised (ML) outlier
detector returns the empty anomaly list and leaves every transaction
untouched (no is_anomaly flag set), degrading gracefully; with at least
10, its anomaly list holds exactly the positions the fitted model labels
outliers, and exactly those positions have their flag set in the updated
list. -/
theorem claim_ml_minimum_sample (predict : List Transaction → Nat → Bool)
    (ts : List Transaction) :
    (ts.length < 10 → detect_ml_anomalies predict ts = (ts, [])) ∧
    (10 ≤ ts.length →
      (∀ i : Nat, i ∈ (detect_ml_anomalies predict ts).2 ↔
          i < ts.length ∧ predict ts i = true) ∧
      (∀ i : Nat, ((detect_ml_anomalies predict ts).1)[i]? = (ts[i]?).map (fun t =>
          if predict ts i then { t with is_anomaly := true } else t))) := by
  constructor
  · intro h
    unfold detect_ml_anomalies
    rw [if_pos h]
  · intro h
    have hnot : ¬ ts.length < 10 := by omega
    constructor
    · intro i
      unfold detect_ml_anomalies
      rw [if_neg hnot]
      simp only [List.mem_map, List.mem_filter]
      constructor
      · rintro ⟨⟨j, t⟩, ⟨hmem, hp⟩, rfl⟩
        have := List.mem_iff_getElem?.mp hmem
        obtain ⟨k, hk⟩ := this
        rw [List.getElem?_enum] at hk
        cases hgt : ts[k]? with
        | none => rw [hgt] at hk; simp at hk
        | some u =>
          rw [hgt] at hk
          simp only [Option.map_some', Option.some.injEq, Prod.mk.injEq] at hk
          obtain ⟨rfl, rfl⟩ := hk
          exact ⟨(List.getElem?_eq_some.mp hgt).1, hp⟩
      · rintro ⟨hi, hp⟩
        refine ⟨(i, ts[i]), ⟨?_, hp⟩, rfl⟩
        rw [List.mem_iff_getElem?]
        exact ⟨i, by rw [List.getElem?_enum, List.getElem?_eq_getElem hi]; rfl⟩
    · intro i
      unfold detect_ml_anomalies
      rw [if_neg hnot, List.getElem?_map, List.getElem?_enum]
      cases hgt : ts[i]? <;> simp

/-- Witness for C6 at concrete inputs: the empty list is below the
threshold, so the detector returns it untouched with no anomalies (the
second conjunct's hypothesis 10 <= 0 being unsatisfied is immaterial: the
first conjunct is exercised). -/
theorem claim_ml_minimum_sample_witness :
    detect_ml_anomalies (fun _ _ => true) [] = ([], []) :=
  (claim_ml_minimum_sample (fun _ _ => true) []).1 (by decide)

/-- Grouping step of detect_frequency_anomalies: append position i to the
bucket of description d (Python dict insertion order), creating the
bucket at the end when absent. -/
def add_to_groups (gs : List (String × List Nat)) (d : String) (i : Nat) :
    List (String × List Nat) :=
  if gs.any (fun g => g.1 == d) then
    gs.map (fun g => if g.1 == d then (g.1, g.2 ++ [i]) else g)
  else gs ++ [(d, [i])]

/-- The merchant_transactions dict of detect_frequency_anomalies: buckets
of positions keyed by exact description text, in first-occurrence
order. -/
def desc_groups (ts : List Transaction) : List (String × List Nat) :=
  ts.enum.foldl (fun gs p => add_to_groups gs p.2.description p.1) []

/-- Date of the transaction at a position, in microseconds (0 when out of
range; the detector only reads positions inside the list). -/
def date_micros_at (ts : List Transaction) (i : Nat) : Int :=
  match ts[i]? with
  | some t => t.date.toMicros
  | none => 0

/-- The trans_list.sort(key=lambda x: x.date) step: Python's stable sort
of the bucket by transaction date. -/
def group_sorted (ts : List Transaction) (idxs : List Nat) : List Nat :=
  idxs.insertionSort (fun a b => date_micros_at ts a ≤ date_micros_at ts b)

/-- Day gaps between consecutive date-sorted transactions of a bucket:
(trans_list[i].date - trans_list[i-1].date).days. -/
def consecutive_diffs (ts : List Transaction) (sorted : List Nat) : List Int :=
  (sorted.zip sorted.tail).map (fun p =>
    Int.fdiv (date_micros_at ts p.2 - date_micros_at ts p.1) microsPerDay)

/-- Gap test of the frequency detector: diff < avg_diff / 3 and
diff < 2 days. -/
def gap_qualifies (avg : ℚ) (d : Int) : Bool :=
  decide ((d : ℚ) < avg / 3) && decide (d < 2)

/-- One guarded mutation of the frequency detector: if the transaction at
idx is not yet flagged, set its flag and append it to the anomaly
list. -/
def flag_if_new (st : List Transaction × List Nat) (idx : Nat) :
    List Transaction × List Nat :=
  match st.1[idx]? with
  | none => st
  | some t => if t.is_anomaly then st else (set_flag st.1 idx, st.2 ++ [idx])

/-- Processing of one description bucket by detect_frequency_anomalies:
buckets of fewer than 2 entries are skipped; otherwise the bucket is
date-sorted, consecutive day gaps and their mean are computed, and for
every qualifying gap both endpoints are flagged-and-appended unless
already flagged. Dates are read from the list ts0 as it stood when the
detector started (the mutations only touch is_anomaly, never dates). -/
def process_group (ts0 : List Transaction) (idxs : List Nat)
    (st : List Transaction × List Nat) : List Transaction × List Nat :=
  if idxs.length < 2 then st
  else
    let sorted := group_sorted ts0 idxs
    let diffs := consecutive_diffs ts0 sorted
    if diffs.isEmpty then st
    else
      let avg : ℚ := (diffs.map (fun d => (Int.cast d : ℚ))).sum / (diffs.length : ℚ)
      (List.range diffs.length).foldl (fun acc i =>
        if gap_qualifies avg (diffs.getD i 0) then
          flag_if_new (flag_if_new acc (sorted.getD i 0)) (sorted.getD (i + 1) 0)
        else acc) st

/-- AnomalyDetector.detect_frequency_anomalies
(src/expense_tracker/anomaly_detector.py lines 144-193): group positions
by description, process each bucket in dict order, returning the updated
transaction list and the positions appended to the anomalies list. -/
def detect_frequency_anomalies (ts : List Transaction) :
    List Transaction × List Nat :=
  (desc_groups ts).foldl (fun st g => process_group ts g.2 st) (ts, [])

/-- Entries of set_flag: position i gets its flag set, others are
untouched. -/
theorem set_flag_getElem? (l : List Transaction) (i j : Nat) :
    (set_flag l i)[j]? =
      if i = j then (l[i]?).map (fun t => { t with is_anomaly := true })
      else l[j]? := by
  induction l generalizing i j with
  | nil => cases i <;> cases j <;> simp [set_flag]
  | cons t ts ih =>
    cases i with
    | zero => cases j <;> simp [set_flag]
    | succ i =>
      cases j with
      | zero => simp [set_flag]
      | succ j =>
        simp only [set_flag, List.getElem?_cons_succ, ih, Nat.add_right_cancel_iff]

/-- Length is preserved by set_flag. -/
theorem set_flag_length (l : List Transaction) (i : Nat) :
    (set_flag l i).length = l.length := by
  induction l generalizing i with
  | nil => cases i <;> rfl
  | cons t ts ih => cases i <;> simp [set_flag, ih]

/-- The is_anomaly flag stored at a position (true out of range, so that
a false flag certifies the position exists). -/
def flag_at (ts : List Transaction) (i : Nat) : Bool :=
  match ts[i]? with
  | some t => t.is_anomaly
  | none => true

/-- After set_flag, the touched position reads flagged. -/
theorem flag_at_set_flag_self (l : List Transaction) (idx : Nat) :
    flag_at (set_flag l idx) idx = true := by
  unfold flag_at
  rw [set_flag_getElem?, if_pos rfl]
  cases l[idx]? <;> simp

/-- After set_flag, other positions read their previous flag. -/
theorem flag_at_set_flag_other (l : List Transaction) (idx i : Nat)
    (h : idx ≠ i) : flag_at (set_flag l idx) i = flag_at l i := by
  unfold flag_at
  rw [set_flag_getElem?, if_neg h]

/-- Invariant carried by the state (transaction list, anomaly positions)
through the frequency detector, relative to the list ts0 the detector
started from: the anomaly positions are free of repetitions and all
currently flagged, and every position flagged before the detector ran is
untouched and unreported. -/
def FreqInv (ts0 : List Transaction) (st : List Transaction × List Nat) : Prop :=
  st.1.length = ts0.length ∧
  st.2.Nodup ∧
  (∀ i ∈ st.2, flag_at st.1 i = true) ∧
  (∀ i : Nat, flag_at ts0 i = true → st.1[i]? = ts0[i]? ∧ i ∉ st.2)

/-- The guarded flag-and-append step preserves the frequency detector's
invariant. -/
theorem flag_if_new_inv {ts0 : List Transaction}
    {st : List Transaction × List Nat} (h : FreqInv ts0 st) (idx : Nat) :
    FreqInv ts0 (flag_if_new st idx) := by
  obtain ⟨hlen, hnd, hflag, hold⟩ := h
  unfold flag_if_new
  cases hg : st.1[idx]? with
  | none => exact ⟨hlen, hnd, hflag, hold⟩
  | some t =>
    show FreqInv ts0
      (if t.is_anomaly = true then st else (set_flag st.1 idx, st.2 ++ [idx]))
    cases ha : t.is_anomaly with
    | true => rw [if_pos rfl]; exact ⟨hlen, hnd, hflag, hold⟩
    | false =>
      rw [if_neg (by simp)]
      have hidx_not : idx ∉ st.2 := by
        intro hmem
        have hf := hflag idx hmem
        unfold flag_at at hf
        rw [hg] at hf
        have hf2 : t.is_anomaly = true := hf
        rw [ha] at hf2
        exact Bool.false_ne_true hf2
      refine ⟨?_, ?_, ?_, ?_⟩
      · rw [set_flag_length]; exact hlen
      · rw [List.nodup_append]
        exact ⟨hnd, List.nodup_singleton idx,
          fun a hmem hmem1 => by
            rw [List.mem_singleton] at hmem1
            exact hidx_not (hmem1 ▸ hmem)⟩
      · intro i hi
        rw [List.mem_append, List.mem_singleton] at hi
        rcases hi with hi | rfl
        · by_cases hcase : idx = i
          · subst hcase; exact flag_at_set_flag_self _ _
          · rw [flag_at_set_flag_other _ _ _ hcase]; exact hflag i hi
        · exact flag_at_set_flag_self _ _
      · intro i hfi
        obtain ⟨heq, hnot⟩ := hold i hfi
        have hne : idx ≠ i := by
          rintro rfl
          unfold flag_at at hfi
          rw [← heq, hg] at hfi
          have hfi2 : t.is_anomaly = true := hfi
          rw [ha] at hfi2
          exact Bool.false_ne_true hfi2
        constructor
        · rw [set_flag_getElem?, if_neg hne]; exact heq
        · rw [List.mem_append, List.mem_singleton]
          rintro (hmem | rfl)
          · exact hnot hmem
          · exact hne rfl

/-- A fold whose every step preserves a predicate preserves it. -/
theorem foldl_preserve {α β : Type} {P : β → Prop} (f : β → α → β)
    (hf : ∀ st a, P st → P (f st a)) :
    ∀ (l : List α) (st : β), P st → P (l.foldl f st) := by
  intro l
  induction l with
  | nil => intro st h; exact h
  | cons a l ih => intro st h; exact ih (f st a) (hf st a h)

/-- Bucket processing preserves the frequency detector's invariant. -/
theorem process_group_inv (ts0 : List Transaction) (idxs : List Nat)
    {st : List Transaction × List Nat} (h : FreqInv ts0 st) :
    FreqInv ts0 (process_group ts0 idxs st) := by
  simp only [process_group]
  split
  · exact h
  · split
    · exact h
    · apply foldl_preserve
      · intro acc i hacc
        split
        · exact flag_if_new_inv (flag_if_new_inv hacc _) _
        · exact hacc
      · exact h

/-- The frequency detector's final state satisfies the invariant. -/
theorem detect_frequency_inv (ts : List Transaction) :
    FreqInv ts (detect_frequency_anomalies ts) := by
  unfold detect_frequency_anomalies
  apply foldl_preserve
  · intro st g hst
    exact process_group_inv ts g.2 hst
  · exact ⟨rfl, List.nodup_nil, fun i hi => absurd hi (List.not_mem_nil i),
      fun i _ => ⟨rfl, List.not_mem_nil i⟩⟩

/-- Three same-payee transactions one, then ten days apart: the gaps are
[1, 10], the mean gap 11/2, and the first pair qualifies (1 < 11/6 and
1 < 2) while the second does not. -/
def freq_demo : List Transaction :=
  [{ date := ⟨2024, 1, 1, 0, 0, 0, 0⟩, description := "s", amount := 5 },
   { date := ⟨2024, 1, 2, 0, 0, 0, 0⟩, description := "s", amount := 6 },
   { date := ⟨2024, 1, 12, 0, 0, 0, 0⟩, description := "s", amount := 7 }]

/-- The same three transactions with the first one already flagged by an
earlier detector. -/
def freq_demo_preflagged : List Transaction :=
  [{ date := ⟨2024, 1, 1, 0, 0, 0, 0⟩, description := "s", amount := 5,
     is_anomaly := true },
   { date := ⟨2024, 1, 2, 0, 0, 0, 0⟩, description := "s", amount := 6 },
   { date := ⟨2024, 1, 12, 0, 0, 0, 0⟩, description := "s", amount := 7 }]

/-- Buckets of the demo list: one group holding all three positions. -/
theorem freq_demo_groups : desc_groups freq_demo = [("s", [0, 1, 2])] := by decide

/-- Buckets of the preflagged demo list. -/
theorem freq_demo_preflagged_groups :
    desc_groups freq_demo_preflagged = [("s", [0, 1, 2])] := by decide

/-- Date order of the demo bucket. -/
theorem freq_demo_sorted : group_sorted freq_demo [0, 1, 2] = [0, 1, 2] := by decide

/-- Day gaps of the demo bucket. -/
theorem freq_demo_diffs : consecutive_diffs freq_demo [0, 1, 2] = [1, 10] := by decide

/-- Date order of the preflagged demo bucket (dates are identical). -/
theorem freq_demo_preflagged_sorted :
    group_sorted freq_demo_preflagged [0, 1, 2] = [0, 1, 2] := by decide

/-- Day gaps of the preflagged demo bucket. -/
theorem freq_demo_preflagged_diffs :
    consecutive_diffs freq_demo_preflagged [0, 1, 2] = [1, 10] := by decide

/-- Running the frequency detector on the demo list reports positions 0
and 1 (the one-day pair), in order, once each. -/
theorem freq_demo_run : (detect_frequency_anomalies freq_demo).2 = [0, 1] := by
  have hr : List.range 2 = [0, 1] := by decide
  unfold detect_frequency_anomalies
  rw [freq_demo_groups]
  simp only [List.foldl, process_group, freq_demo_sorted, freq_demo_diffs]
  norm_num [hr, gap_qualifies, flag_if_new, set_flag, freq_demo, List.getD]

/-- Running the frequency detector on the preflagged demo list reports
only position 1: position 0, already flagged, is omitted from the
attribution list although its pair qualifies. -/
theorem freq_demo_preflagged_run :
    (detect_frequency_anomalies freq_demo_preflagged).2 = [1] := by
  have hr : List.range 2 = [0, 1] := by decide
  unfold detect_frequency_anomalies
  rw [freq_demo_preflagged_groups]
  simp only [List.foldl, process_group, freq_demo_preflagged_sorted,
    freq_demo_preflagged_diffs]
  norm_num [hr, gap_qualifies, flag_if_new, set_flag, freq_demo_preflagged,
    List.getD]

/-- C10: the frequency detector's attribution list has no repeated
position; a transaction whose is_anomaly flag was already true when the
detector ran is omitted from the list (even when it belongs to a
qualifying consecutive pair) and its entry, flag included, is left
untouched; and the list genuinely depends on previously set flags: on
the demo list the detector reports positions 0 and 1, but reports only
position 1 when position 0 was flagged by an earlier detector. -/
theorem claim_frequency_list_and_preflagged (ts : List Transaction) :
    (detect_frequency_anomalies ts).2.Nodup ∧
    (∀ (i : Nat) (t : Transaction), ts[i]? = some t → t.is_anomaly = true →
      i ∉ (detect_frequency_anomalies ts).2 ∧
        ((detect_frequency_anomalies ts).1)[i]? = some t) ∧
    ((detect_frequency_anomalies freq_demo).2 = [0, 1] ∧
      (detect_frequency_anomalies freq_demo_preflagged).2 = [1]) := by
  obtain ⟨hlen, hnd, hflag, hold⟩ := detect_frequency_inv ts
  refine ⟨hnd, ?_, freq_demo_run, freq_demo_preflagged_run⟩
  intro i t hget hanom
  have hfa : flag_at ts i = true := by
    unfold flag_at
    rw [hget]
    exact hanom
  obtain ⟨heq, hnot⟩ := hold i hfa
  exact ⟨hnot, by rw [heq, hget]⟩

/-- AnomalyDetector.detect_all_anomalies
(src/expense_tracker/anomaly_detector.py lines 195-220): reset every
flag, then run the statistical, ML and frequency detectors in sequence
on the same (mutated in place) list; the final list and the three
attribution lists are returned. -/
def detect_all_anomalies (baseline : List (String × CategoryStats))
    (predict : List Transaction → Nat → Bool) (ts : List Transaction) :
    List Transaction × (List Nat × List Nat × List Nat) :=
  let ts0 := ts.map (fun t => { t with is_anomaly := false })
  let r1 := detect_statistical_anomalies baseline ts0
  let r2 := detect_ml_anomalies predict r1.1
  let r3 := detect_frequency_anomalies r2.1
  (r3.1, (r1.2, r2.2, r3.2))

/-- Python's round to the nearest integer, halves to the even neighbour
(banker's rounding), idealized over exact rationals. -/
def py_round_half_even (x : ℚ) : ℤ :=
  if x - ⌊x⌋ < 1 / 2 then ⌊x⌋
  else if 1 / 2 < x - ⌊x⌋ then ⌊x⌋ + 1
  else if ⌊x⌋ % 2 = 0 then ⌊x⌋ else ⌊x⌋ + 1

/-- Python's round(x, 2). -/
def py_round2 (x : ℚ) : ℚ := (py_round_half_even (x * 100) : ℚ) / 100

/-- Decimal digit character. -/
def digit_char (d : Nat) : Char := Char.ofNat (48 + d)

/-- Fixed-width zero-padded decimal digits of n, most significant
first. -/
def pad_digits : Nat → Nat → List Char
  | 0, _ => []
  | k + 1, n => digit_char (n / 10 ^ k % 10) :: pad_digits k n

/-- The strftime('%Y-%m-%d') rendering used by the anomaly summary. -/
def strftime_ymd (d : Datetime) : String :=
  ⟨pad_digits 4 d.year ++ '-' :: (pad_digits 2 d.month ++ '-' :: pad_digits 2 d.day)⟩

/-- Entry of the top-10 anomaly listing of get_anomaly_summary. -/
structure AnomalyRow where
  date : String
  description : String
  amount : ℚ
  category : String
deriving DecidableEq, Repr

/-- Result of AnomalyDetector.get_anomaly_summary. -/
structure AnomalySummary where
  total_transactions : Nat
  anomaly_count : Nat
  anomaly_percentage : ℚ
  total_anomaly_amount : ℚ
  anomalies : List AnomalyRow
deriving Repr

/-- Projection of a flagged transaction into its summary row. -/
def anomaly_row (t : Transaction) : AnomalyRow :=
  ⟨strftime_ymd t.date, t.description, t.amount, t.category⟩

/-- AnomalyDetector.get_anomaly_summary
(src/expense_tracker/anomaly_detector.py lines 222-250): counts of
flagged transactions, their percentage (0 for an empty list), the
rounded total of their absolute amounts, and the ten largest flagged
transactions by absolute amount in descending order (Python's stable
sorted with reverse=True, modelled by a stable insertion sort). -/
def get_anomaly_summary (ts : List Transaction) : AnomalySummary :=
  let anomalies := ts.filter (fun t => t.is_anomaly)
  { total_transactions := ts.length
    anomaly_count := anomalies.length
    anomaly_percentage :=
      if ts.isEmpty then 0
      else py_round2 ((anomalies.length : ℚ) / (ts.length : ℚ) * 100)
    total_anomaly_amount := py_round2 ((anomalies.map (fun t => |t.amount|)).sum)
    anomalies :=
      ((anomalies.insertionSort (fun a b => |b.amount| ≤ |a.amount|)).take 10).map
        anomaly_row }

/-- Summary counters and top-10 listing, for an arbitrary transaction
list: count is the number of set flags, the percentage follows the
rounded ratio formula with the empty-list guard, and the listing is the
top-10 of the flagged transactions by absolute amount: it has
min(10, anomaly count) rows, in descending order of absolute amount,
every row comes from a flagged transaction, every flagged transaction is
listed when at most ten are flagged, and any unlisted flagged
transaction has absolute amount at most that of every listed row. -/
theorem anomaly_summary_spec (l : List Transaction) :
    (get_anomaly_summary l).anomaly_count = l.countP (fun t => t.is_anomaly) ∧
    (get_anomaly_summary l).anomaly_percentage =
      (if l.length = 0 then 0
       else py_round2 ((l.countP (fun t => t.is_anomaly) : ℚ) / (l.length : ℚ) * 100)) ∧
    (get_anomaly_summary l).anomalies.length =
      min 10 (l.countP (fun t => t.is_anomaly)) ∧
    List.Sorted (fun r s : AnomalyRow => |s.amount| ≤ |r.amount|)
      (get_anomaly_summary l).anomalies ∧
    (∀ r ∈ (get_anomaly_summary l).anomalies,
      ∃ t ∈ l, t.is_anomaly = true ∧ r = anomaly_row t) ∧
    (l.countP (fun t => t.is_anomaly) ≤ 10 →
      ∀ t ∈ l, t.is_anomaly = true →
        anomaly_row t ∈ (get_anomaly_summary l).anomalies) ∧
    (∀ t ∈ l, t.is_anomaly = true →
      anomaly_row t ∉ (get_anomaly_summary l).anomalies →
      ∀ r ∈ (get_anomaly_summary l).anomalies, |t.amount| ≤ |r.amount|) := by
  have hcount : (l.filter (fun t => t.is_anomaly)).length =
      l.countP (fun t => t.is_anomaly) :=
    (List.countP_eq_length_filter _ _).symm
  have hsorted : List.Sorted (fun a b : Transaction => |b.amount| ≤ |a.amount|)
      ((l.filter (fun t => t.is_anomaly)).insertionSort
        (fun a b => |b.amount| ≤ |a.amount|)) := by
    haveI : IsTotal Transaction (fun a b => |b.amount| ≤ |a.amount|) :=
      ⟨fun a b => le_total _ _⟩
    haveI : IsTrans Transaction (fun a b => |b.amount| ≤ |a.amount|) :=
      ⟨fun a b c hab hbc => le_trans hbc hab⟩
    exact List.sorted_insertionSort _ _
  refine ⟨hcount, ?_, ?_, ?_, ?_, ?_, ?_⟩
  · show (if l.isEmpty then 0
        else py_round2 (((l.filter (fun t => t.is_anomaly)).length : ℚ) / (l.length : ℚ) * 100)) = _
    cases l with
    | nil => simp
    | cons t ts => simp [hcount]
  · show (List.map anomaly_row
        (List.take 10 (List.insertionSort (fun a b : Transaction => |b.amount| ≤ |a.amount|)
          (List.filter (fun t => t.is_anomaly) l)))).length = _
    rw [List.length_map, List.length_take, List.length_insertionSort, hcount]
  · apply List.Pairwise.map
    · intro a b hab
      exact hab
    · exact List.Pairwise.sublist (List.take_sublist _ _) hsorted
  · intro r hr
    simp only [get_anomaly_summary, List.mem_map] at hr
    obtain ⟨t, ht, rfl⟩ := hr
    have ht2 : t ∈ (l.filter (fun t => t.is_anomaly)).insertionSort
        (fun a b => |b.amount| ≤ |a.amount|) :=
      (List.take_sublist _ _).subset ht
    rw [List.mem_insertionSort, List.mem_filter] at ht2
    exact ⟨t, ht2.1, ht2.2, rfl⟩
  · intro hle t htl hta
    have hSlen : ((l.filter (fun t => t.is_anomaly)).insertionSort
        (fun a b => |b.amount| ≤ |a.amount|)).length ≤ 10 := by
      rw [List.length_insertionSort, hcount]
      exact hle
    have htS : t ∈ (l.filter (fun t => t.is_anomaly)).insertionSort
        (fun a b => |b.amount| ≤ |a.amount|) :=
      (List.mem_insertionSort _).mpr (List.mem_filter.mpr ⟨htl, hta⟩)
    show anomaly_row t ∈ (List.map anomaly_row (List.take 10 _))
    rw [List.take_of_length_le hSlen]
    exact List.mem_map_of_mem _ htS
  · intro t htl hta hnot r hr
    have htS : t ∈ (l.filter (fun t => t.is_anomaly)).insertionSort
        (fun a b => |b.amount| ≤ |a.amount|) :=
      (List.mem_insertionSort _).mpr (List.mem_filter.mpr ⟨htl, hta⟩)
    have htnottake : t ∉ ((l.filter (fun t => t.is_anomaly)).insertionSort
        (fun a b => |b.amount| ≤ |a.amount|)).take 10 := by
      intro hmem
      exact hnot (List.mem_map_of_mem _ hmem)
    have htdrop : t ∈ ((l.filter (fun t => t.is_anomaly)).insertionSort
        (fun a b => |b.amount| ≤ |a.amount|)).drop 10 := by
      have happ := List.take_append_drop 10 ((l.filter (fun t => t.is_anomaly)).insertionSort
        (fun a b => |b.amount| ≤ |a.amount|))
      have h2 := happ.symm ▸ htS
      rcases List.mem_append.mp h2 with h | h
      · exact absurd h htnottake
      · exact h
    simp only [get_anomaly_summary, List.mem_map] at hr
    obtain ⟨u, hu, rfl⟩ := hr
    have hpair := hsorted
    rw [← List.take_append_drop 10 ((l.filter (fun t => t.is_anomaly)).insertionSort
        (fun a b => |b.amount| ≤ |a.amount|))] at hpair
    exact (List.pairwise_append.mp hpair).2.2 u hu t htdrop

/-- C3: after detect_all_anomalies followed by get_anomaly_summary, the
reported anomaly_count is the number of transactions whose is_anomaly
flag is set, the reported anomaly_percentage is
round(anomaly_count / total * 100, 2) with 0 for an empty list, and the
summary lists exactly the top-10 anomalies by absolute amount,
descending: min(10, anomaly count) rows, each from a flagged
transaction, every flagged transaction listed when at most ten exist,
and every unlisted flagged transaction no larger in absolute amount
than any listed row. -/
theorem claim_summary_counts (baseline : List (String × CategoryStats))
    (predict : List Transaction → Nat → Bool) (ts : List Transaction) :
    (get_anomaly_summary ((detect_all_anomalies baseline predict ts).1)).anomaly_count =
      ((detect_all_anomalies baseline predict ts).1).countP (fun t => t.is_anomaly) ∧
    (get_anomaly_summary ((detect_all_anomalies baseline predict ts).1)).anomaly_percentage =
      (if ((detect_all_anomalies baseline predict ts).1).length = 0 then 0
       else py_round2
        ((((detect_all_anomalies baseline predict ts).1).countP (fun t => t.is_anomaly) : ℚ) /
          (((detect_all_anomalies baseline predict ts).1).length : ℚ) * 100)) ∧
    (get_anomaly_summary ((detect_all_anomalies baseline predict ts).1)).anomalies.length =
      min 10 (((detect_all_anomalies baseline predict ts).1).countP (fun t => t.is_anomaly)) ∧
    List.Sorted (fun r s : AnomalyRow => |s.amount| ≤ |r.amount|)
      (get_anomaly_summary ((detect_all_anomalies baseline predict ts).1)).anomalies ∧
    (∀ r ∈ (get_anomaly_summary ((detect_all_anomalies baseline predict ts).1)).anomalies,
      ∃ t ∈ (detect_all_anomalies baseline predict ts).1,
        t.is_anomaly = true ∧ r = anomaly_row t) ∧
    (((detect_all_anomalies baseline predict ts).1).countP (fun t => t.is_anomaly) ≤ 10 →
      ∀ t ∈ (detect_all_anomalies baseline predict ts).1, t.is_anomaly = true →
        anomaly_row t ∈
          (get_anomaly_summary ((detect_all_anomalies baseline predict ts).1)).anomalies) ∧
    (∀ t ∈ (detect_all_anomalies baseline predict ts).1, t.is_anomaly = true →
      anomaly_row t ∉
        (get_anomaly_summary ((detect_all_anomalies baseline predict ts).1)).anomalies →
      ∀ r ∈ (get_anomaly_summary ((detect_all_anomalies baseline predict ts).1)).anomalies,
        |t.amount| ≤ |r.amount|) :=
  anomaly_summary_spec _

/-- ASCII lowering of a string's characters, as Python str.lower acts on
the ASCII merchant/keyword texts involved. -/
def lower_chars (s : String) : List Char := s.data.map Char.toLower

/-- First list is a prefix of the second, character by character. -/
def starts_with_chars : List Char → List Char → Bool
  | [], _ => true
  | _ :: _, [] => false
  | a :: as, b :: bs => a == b && starts_with_chars as bs

/-- kw occurs as a contiguous substring of the text: the semantics of
re.search over a re.escape-d keyword. -/
def contains_chars (kw : List Char) : List Char → Bool
  | [] => kw.isEmpty
  | c :: rest => starts_with_chars kw (c :: rest) || contains_chars kw rest

/-- Compiled category pattern of TransactionCategorizer: the IGNORECASE
alternation of the category's escaped keywords matches the (lowercased)
text exactly when some lowercased keyword occurs in it. -/
def category_matches (keywords : List String) (text : List Char) : Bool :=
  keywords.any (fun kw => contains_chars (lower_chars kw) text)

/-- TransactionCategorizer.categorize_transaction (src/categorizer.py
lines 118-136): lowercase the concatenation of merchant and description
(joined by one space), scan the categories in declared configuration
order (Python dicts preserve insertion order) and return the first whose
pattern matches, or "Other". -/
def categorize_transaction (categories : List (String × List String))
    (merchant desc : String) : String :=
  match categories.find? (fun c =>
      category_matches c.2 (lower_chars (merchant ++ " " ++ desc))) with
  | some c => c.1
  | none => "Other"

/-- ExpenseCategorizer.categorize_transaction
(src/expense_tracker/categorizer.py lines 83-102): same first-match scan,
with the searched text being the lowercased description of the
transaction and keywords compared by plain substring containment. -/
def expense_categorize_transaction (categories : List (String × List String))
    (t : Transaction) : String :=
  match categories.find? (fun c =>
      c.2.any (fun kw => contains_chars kw.data (lower_chars t.description))) with
  | some c => c.1
  | none => "Other"

/-- find? returns the first entry satisfying p, with all earlier entries
failing it; or none and the whole list fails it. -/
theorem find?_first_characterization {α : Type} (p : α → Bool) :
    ∀ (l : List α),
      (∃ i, ∃ h : i < l.length, p (l.get ⟨i, h⟩) = true ∧
        (∀ j (hj : j < i), p (l.get ⟨j, Nat.lt_trans hj h⟩) = false) ∧
        l.find? p = some (l.get ⟨i, h⟩)) ∨
      ((∀ c ∈ l, p c = false) ∧ l.find? p = none) := by
  intro l
  induction l with
  | nil => exact Or.inr ⟨fun c hc => absurd hc (List.not_mem_nil c), rfl⟩
  | cons a l ih =>
    cases hp : p a with
    | true =>
      refine Or.inl ⟨0, Nat.succ_pos _, hp, fun j hj => absurd hj (Nat.not_lt_zero j), ?_⟩
      rw [List.find?_cons_of_pos _ hp]
      rfl
    | false =>
      rcases ih with ⟨i, h, hpi, hprev, heq⟩ | ⟨hall, heq⟩
      · refine Or.inl ⟨i + 1, Nat.succ_lt_succ h, hpi, ?_, ?_⟩
        · intro j hj
          cases j with
          | zero => exact hp
          | succ j => exact hprev j (Nat.lt_of_succ_lt_succ hj)
        · rw [List.find?_cons_of_neg _ (by simp [hp]), heq]
          rfl
      · refine Or.inr ⟨?_, ?_⟩
        · intro c hc
          rcases List.mem_cons.mp hc with rfl | hc
          · exact hp
          · exact hall c hc
        · rw [List.find?_cons_of_neg _ (by simp [hp]), heq]

/-- C4: categorization is deterministic and first-match-wins. For every
configured category list, payee and description, categorize_transaction
returns the name of the first category, in declared order, whose keyword
pattern matches somewhere in the lowercased concatenation of payee and
description, and the "Other" sentinel when none matches; the
expense_tracker variant obeys the same first-match rule over its
lowercased description; and with {"Groceries": ["walmart"]} declared
before {"Shopping": ["mart"]}, payee "Walmart Supercenter" resolves to
"Groceries". -/
theorem claim_categorizer_first_match :
    (∀ (categories : List (String × List String)) (merchant desc : String),
      (∃ i, ∃ h : i < categories.length,
        category_matches (categories.get ⟨i, h⟩).2
          (lower_chars (merchant ++ " " ++ desc)) = true ∧
        (∀ j (hj : j < i), category_matches (categories.get ⟨j, Nat.lt_trans hj h⟩).2
          (lower_chars (merchant ++ " " ++ desc)) = false) ∧
        categorize_transaction categories merchant desc = (categories.get ⟨i, h⟩).1) ∨
      ((∀ c ∈ categories,
          category_matches c.2 (lower_chars (merchant ++ " " ++ desc)) = false) ∧
        categorize_transaction categories merchant desc = "Other")) ∧
    (∀ (categories : List (String × List String)) (t : Transaction),
      (∃ i, ∃ h : i < categories.length,
        ((categories.get ⟨i, h⟩).2.any (fun kw =>
          contains_chars kw.data (lower_chars t.description))) = true ∧
        (∀ j (hj : j < i), ((categories.get ⟨j, Nat.lt_trans hj h⟩).2.any (fun kw =>
          contains_chars kw.data (lower_chars t.description))) = false) ∧
        expense_categorize_transaction categories t = (categories.get ⟨i, h⟩).1) ∨
      ((∀ c ∈ categories,
          (c.2.any (fun kw => contains_chars kw.data (lower_chars t.description))) = false) ∧
        expense_categorize_transaction categories t = "Other")) ∧
    categorize_transaction [("Groceries", ["walmart"]), ("Shopping", ["mart"])]
      "Walmart Supercenter" "" = "Groceries" := by
  refine ⟨?_, ?_, by decide⟩
  · intro categories merchant desc
    rcases find?_first_characterization (fun c =>
        category_matches c.2 (lower_chars (merchant ++ " " ++ desc))) categories with
      ⟨i, h, hpi, hprev, heq⟩ | ⟨hall, heq⟩
    · exact Or.inl ⟨i, h, hpi, hprev, by unfold categorize_transaction; rw [heq]⟩
    · exact Or.inr ⟨hall, by unfold categorize_transaction; rw [heq]⟩
  · intro categories t
    rcases find?_first_characterization (fun c =>
        c.2.any (fun kw => contains_chars kw.data (lower_chars t.description))) categories with
      ⟨i, h, hpi, hprev, heq⟩ | ⟨hall, heq⟩
    · exact Or.inl ⟨i, h, hpi, hprev, by unfold expense_categorize_transaction; rw [heq]⟩
    · exact Or.inr ⟨hall, by unfold expense_categorize_transaction; rw [heq]⟩

/-- Digit character parse: inverse of digit_char on '0'-'9'. -/
def parse_digit (c : Char) : Option Nat :=
  if 48 ≤ c.toNat ∧ c.toNat ≤ 57 then some (c.toNat - 48) else none

/-- Fixed-width decimal number parse, consuming exactly k characters. -/
def parse_fixed : Nat → Nat → List Char → Option (Nat × List Char)
  | 0, acc, s => some (acc, s)
  | _ + 1, _, [] => none
  | k + 1, acc, c :: s =>
    match parse_digit c with
    | some d => parse_fixed k (acc * 10 + d) s
    | none => none

/-- Consume one expected character. -/
def expect_char (c : Char) : List Char → Option (List Char)
  | [] => none
  | b :: s => if b = c then some s else none

/-- Datetime.isoformat of Python: YYYY-MM-DDTHH:MM:SS, with a .ffffff
microsecond suffix exactly when the microsecond field is nonzero. -/
def Datetime.isoformat (d : Datetime) : String :=
  ⟨pad_digits 4 d.year ++ '-' :: (pad_digits 2 d.month ++ '-' :: (pad_digits 2 d.day ++
    'T' :: (pad_digits 2 d.hour ++ ':' :: (pad_digits 2 d.minute ++ ':' ::
    (pad_digits 2 d.second ++
      (if d.microsecond = 0 then [] else '.' :: pad_digits 6 d.microsecond))))))⟩

/-- Python's datetime.fromisoformat on the strings isoformat produces
(the exact grammar it accepted up to Python 3.10): fixed-width date and
time fields with their separators, and an optional 6-digit microsecond
suffix; anything else is rejected. -/
def Datetime.fromisoformat (s : String) : Option Datetime := do
  let (y, r1) ← parse_fixed 4 0 s.data
  let r2 ← expect_char '-' r1
  let (mo, r3) ← parse_fixed 2 0 r2
  let r4 ← expect_char '-' r3
  let (da, r5) ← parse_fixed 2 0 r4
  let r6 ← expect_char 'T' r5
  let (h, r7) ← parse_fixed 2 0 r6
  let r8 ← expect_char ':' r7
  let (mi, r9) ← parse_fixed 2 0 r8
  let r10 ← expect_char ':' r9
  let (se, r11) ← parse_fixed 2 0 r10
  match r11 with
  | [] => pure ⟨y, mo, da, h, mi, se, 0⟩
  | '.' :: r12 =>
    match parse_fixed 6 0 r12 with
    | some (us, []) => pure ⟨y, mo, da, h, mi, se, us⟩
    | _ => none
  | _ => none

/-- Serialized transaction record of Transaction.to_dict: the date as an
ISO-8601 string, the remaining fields verbatim. -/
structure TransactionDict where
  date : String
  description : String
  amount : ℚ
  category : String
  is_anomaly : Bool
deriving DecidableEq, Repr

/-- Transaction.to_dict (src/expense_tracker/models.py lines 19-27). -/
def Transaction.to_dict (t : Transaction) : TransactionDict :=
  ⟨t.date.isoformat, t.description, t.amount, t.category, t.is_anomaly⟩

/-- Transaction.from_dict (src/expense_tracker/models.py lines 29-34):
the date string is parsed with datetime.fromisoformat (which raises on a
malformed string, modelled by none), the other fields are taken
verbatim. -/
def Transaction.from_dict (d : TransactionDict) : Option Transaction :=
  (Datetime.fromisoformat d.date).map (fun dt =>
    ⟨dt, d.description, d.amount, d.category, d.is_anomaly⟩)

/-- Parsing a padded number consumes exactly its digits and returns the
number (mod the width) folded onto the accumulator. -/
theorem parse_fixed_pad_digits (k : Nat) :
    ∀ (acc n : Nat) (rest : List Char),
      parse_fixed k acc (pad_digits k n ++ rest) = some (acc * 10 ^ k + n % 10 ^ k, rest) := by
  induction k with
  | zero =>
    intro acc n rest
    simp [parse_fixed, pad_digits, Nat.mod_one]
  | succ k ih =>
    intro acc n rest
    have hd : n / 10 ^ k % 10 < 10 := Nat.mod_lt _ (by norm_num)
    have hparse : parse_digit (digit_char (n / 10 ^ k % 10)) = some (n / 10 ^ k % 10) := by
      unfold parse_digit digit_char
      interval_cases h : n / 10 ^ k % 10 <;> decide
    show parse_fixed (k + 1) acc
      (digit_char (n / 10 ^ k % 10) :: pad_digits k n ++ rest) = _
    rw [show (digit_char (n / 10 ^ k % 10) :: pad_digits k n) ++ rest =
      digit_char (n / 10 ^ k % 10) :: (pad_digits k n ++ rest) from rfl]
    unfold parse_fixed
    rw [hparse]
    show parse_fixed k (acc * 10 + n / 10 ^ k % 10) (pad_digits k n ++ rest) = _
    rw [ih]
    congr 1
    congr 1
    have h10 : (10 : Nat) ^ (k + 1) = 10 ^ k * 10 := pow_succ 10 k
    rw [h10, Nat.mod_mul]
    ring

/-- Parsing a padded number standing alone. -/
theorem parse_fixed_pad_digits_nil (k n : Nat) :
    parse_fixed k 0 (pad_digits k n) = some (n % 10 ^ k, []) := by
  have h := parse_fixed_pad_digits k 0 n []
  rw [List.append_nil] at h
  rw [h]
  congr 2
  omega

set_option maxHeartbeats 3200000

/-- fromisoformat inverts isoformat on every valid datetime. -/
theorem fromisoformat_isoformat (d : Datetime) (h : d.Valid) :
    Datetime.fromisoformat d.isoformat = some d := by
  obtain ⟨y, mo, da, ho, mi, se, us⟩ := d
  simp only [Datetime.Valid] at h
  obtain ⟨hy1, hy2, hm1, hm2, hd1, hd2, hho, hmi, hse, hus⟩ := h
  have hy : y % 10000 = y := Nat.mod_eq_of_lt (by omega)
  have hm : mo % 100 = mo := Nat.mod_eq_of_lt (by omega)
  have hd : da % 100 = da := Nat.mod_eq_of_lt (by omega)
  have hh2 : ho % 100 = ho := Nat.mod_eq_of_lt (by omega)
  have hmi2 : mi % 100 = mi := Nat.mod_eq_of_lt (by omega)
  have hs2 : se % 100 = se := Nat.mod_eq_of_lt (by omega)
  have hus2 : us % 1000000 = us := Nat.mod_eq_of_lt (by omega)
  unfold Datetime.fromisoformat Datetime.isoformat
  by_cases husz : us = 0
  · subst husz
    simp [parse_fixed_pad_digits, parse_fixed_pad_digits_nil, expect_char,
      hy, hm, hd, hh2, hmi2, hs2]
  · rw [if_neg husz]
    simp [parse_fixed_pad_digits, parse_fixed_pad_digits_nil, expect_char,
      hy, hm, hd, hh2, hmi2, hs2, hus2]

set_option maxHeartbeats 200000

/-- C8: round-trip serialization. For every transaction (with a date the
Python datetime constructor accepts), converting it to its serialized
record (date rendered as an ISO-8601 string) and deserializing the
record back yields a transaction with identical date, payee text,
amount, category and is_anomaly values. -/
theorem claim_serialization_roundtrip (t : Transaction) (h : t.date.Valid) :
    Transaction.from_dict (Transaction.to_dict t) = some t := by
  unfold Transaction.to_dict Transaction.from_dict
  rw [fromisoformat_isoformat t.date h]
  rfl

/-- Concrete transaction with a microsecond-carrying timestamp, for the
round-trip witness. -/
def roundtrip_demo_tx : Transaction :=
  { date := ⟨2024, 1, 15, 10, 30, 5, 123456⟩, description := "Amazon Purchase",
    amount := 75, category := "Shopping", is_anomaly := false }

/-- Witness for C8 at the concrete transaction: serializing and
deserializing returns it unchanged. -/
theorem claim_serialization_roundtrip_witness :
    Transaction.from_dict (Transaction.to_dict roundtrip_demo_tx) =
      some roundtrip_demo_tx :=
  claim_serialization_roundtrip _ (by decide)

/-- Row of the analyzer's dataframe (src/analyzer.py): transaction date,
merchant text and amount; the pandas index label is the position in the
original frame. -/
structure ARow where
  date : Datetime
  merchant : String
  amount : ℚ
deriving DecidableEq, Repr

/-- Row of the duplicates report of
SpendingAnalyzer.find_duplicate_transactions. -/
structure DupRow where
  date1 : Datetime
  merchant1 : String
  amount : ℚ
  date2 : Datetime
  merchant2 : String
  days_apart : Int
deriving DecidableEq, Repr

/-- pandas DataFrame.drop_duplicates: keep the first occurrence of every
row value, preserving order. -/
def drop_duplicates {α : Type} [DecidableEq α] : List α → List α
  | [] => []
  | r :: rest => r :: drop_duplicates (rest.filter (fun x => decide (x ≠ r)))
termination_by l => l.length
decreasing_by
  simp only [List.length_cons]
  exact Nat.lt_succ_of_le (List.length_filter_le _ _)

/-- Everything drop_duplicates returns was in its input. -/
theorem drop_duplicates_subset {α : Type} [DecidableEq α] :
    ∀ (l : List α), ∀ x ∈ drop_duplicates l, x ∈ l := by
  intro l
  induction l using drop_duplicates.induct with
  | case1 => intro x hx; rw [drop_duplicates] at hx; exact absurd hx (List.not_mem_nil x)
  | case2 r rest ih =>
    intro x hx
    rw [drop_duplicates] at hx
    rcases List.mem_cons.mp hx with rfl | hx
    · exact List.mem_cons_self _ _
    · exact List.mem_cons_of_mem _ (List.mem_of_mem_filter (ih x hx))

/-- drop_duplicates returns a list without repeated rows. -/
theorem drop_duplicates_nodup {α : Type} [DecidableEq α] :
    ∀ (l : List α), (drop_duplicates l).Nodup := by
  intro l
  induction l using drop_duplicates.induct with
  | case1 => rw [drop_duplicates]; exact List.nodup_nil
  | case2 r rest ih =>
    rw [drop_duplicates]
    refine List.nodup_cons.mpr ⟨?_, ih⟩
    intro hr
    have := drop_duplicates_subset _ r hr
    rw [List.mem_filter] at this
    exact (by simpa using this.2 : r ≠ r) rfl

/-- SpendingAnalyzer.find_duplicate_transactions (src/analyzer.py lines
169-210): sort rows by date (stably), and for each row emit one report
row per other row (different original index) of identical amount dated
inside [row.date, row.date + time_window days]; exact duplicate report
rows are then removed. -/
def find_duplicate_transactions (rows : List ARow) (time_window : Nat) :
    List DupRow :=
  let sorted := (rows.enum).insertionSort
    (fun a b => a.2.date.toMicros ≤ b.2.date.toMicros)
  drop_duplicates (sorted.flatMap (fun p =>
    (sorted.filter (fun q => q.2.amount == p.2.amount &&
        decide (p.2.date.toMicros ≤ q.2.date.toMicros) &&
        decide (q.2.date.toMicros ≤ p.2.date.toMicros + time_window * microsPerDay) &&
        q.1 != p.1)).map (fun q =>
      ⟨p.2.date, p.2.merchant, p.2.amount, q.2.date, q.2.merchant,
        dateDiffDays q.2.date p.2.date⟩)))

/-- A pair of rows is linked by the duplicates report when some report
row exposes the two of them as its (date1, merchant1) and
(date2, merchant2) transactions, in either role. -/
def reported_pair (result : List DupRow) (a b : ARow) : Prop :=
  ∃ r ∈ result,
    (r.date1 = a.date ∧ r.merchant1 = a.merchant ∧ r.amount = a.amount ∧
      r.date2 = b.date ∧ r.merchant2 = b.merchant) ∨
    (r.date1 = b.date ∧ r.merchant1 = b.merchant ∧ r.amount = b.amount ∧
      r.date2 = a.date ∧ r.merchant2 = a.merchant)

/-- Membership of an indexed entry in enum determines the entry. -/
theorem mem_enum_getElem? {α : Type} {l : List α} {i : Nat} {a : α}
    (h : (i, a) ∈ l.enum) : l[i]? = some a := by
  rw [List.mem_iff_getElem?] at h
  obtain ⟨k, hk⟩ := h
  rw [List.getElem?_enum] at hk
  cases hg : l[k]? with
  | none => rw [hg] at hk; simp at hk
  | some u =>
    rw [hg] at hk
    simp only [Option.map_some', Option.some.injEq, Prod.mk.injEq] at hk
    obtain ⟨rfl, rfl⟩ := hk
    exact hg

/-- C7: the duplicates report never contains the same report row twice;
the linked-as-duplicates relation it induces is symmetric (whenever A is
reported as a duplicate of B, B is discoverable as a duplicate of A from
the same report); and every report row arises from two distinct source
rows with identical amounts whose dates fall within the window, with
days_apart their date difference in days. -/
theorem claim_duplicates_symmetric_nonredundant (rows : List ARow)
    (time_window : Nat) :
    (find_duplicate_transactions rows time_window).Nodup ∧
    (∀ a b : ARow, reported_pair (find_duplicate_transactions rows time_window) a b →
      reported_pair (find_duplicate_transactions rows time_window) b a) ∧
    (∀ r ∈ find_duplicate_transactions rows time_window,
      ∃ i j : Nat, i ≠ j ∧ ∃ p q : ARow, rows[i]? = some p ∧ rows[j]? = some q ∧
        r.date1 = p.date ∧ r.merchant1 = p.merchant ∧ r.amount = p.amount ∧
        r.date2 = q.date ∧ r.merchant2 = q.merchant ∧ q.amount = p.amount ∧
        p.date.toMicros ≤ q.date.toMicros ∧
        q.date.toMicros ≤ p.date.toMicros + time_window * microsPerDay ∧
        r.days_apart = dateDiffDays q.date p.date) := by
  refine ⟨drop_duplicates_nodup _, ?_, ?_⟩
  · intro a b hab
    obtain ⟨r, hr, hcase⟩ := hab
    exact ⟨r, hr, hcase.symm⟩
  · intro r hr
    have hpairs := drop_duplicates_subset _ r hr
    rw [List.mem_flatMap] at hpairs
    obtain ⟨p, hp, hr2⟩ := hpairs
    rw [List.mem_map] at hr2
    obtain ⟨q, hq, rfl⟩ := hr2
    rw [List.mem_filter] at hq
    obtain ⟨hqmem, hcond⟩ := hq
    simp only [Bool.and_eq_true, beq_iff_eq, bne_iff_ne, decide_eq_true_eq] at hcond
    obtain ⟨⟨⟨hamount, hle1⟩, hle2⟩, hne⟩ := hcond
    have hpmem : p ∈ rows.enum := (List.mem_insertionSort _).mp hp
    have hqmem2 : q ∈ rows.enum := (List.mem_insertionSort _).mp hqmem
    refine ⟨p.1, q.1, fun h => hne h.symm, p.2, q.2,
      mem_enum_getElem? (show (p.1, p.2) ∈ rows.enum from hpmem),
      mem_enum_getElem? (show (q.1, q.2) ∈ rows.enum from hqmem2),
      rfl, rfl, rfl, rfl, rfl, hamount, hle1, hle2, rfl⟩

/-- Fragment of Python's regular expression syntax, covering the date
and amount patterns of src/transaction_parser.py. -/
inductive Re where
  | cset (cs : List Char)
  | range (lo hi : Char)
  | str (s : List Char)
  | seq (a b : Re)
  | alt (a b : Re)
  | opt (a : Re)
  | star (a : Re)
  | eos
deriving Repr

/-- Backtracking matcher with Python's semantics: alternatives in
written order, greedy option and repetition with backtracking, success
passed to the continuation with the remaining characters (fuel bounds
the recursion depth and is chosen large enough for the concrete
searches below). -/
def re_match : Nat → Re → List Char → (List Char → Option (List Char)) →
    Option (List Char)
  | 0, _, _, _ => none
  | fuel + 1, re, s, k =>
    match re with
    | .cset cs =>
      match s with
      | [] => none
      | c :: rest => if cs.contains c then k rest else none
    | .range lo hi =>
      match s with
      | [] => none
      | c :: rest => if lo ≤ c ∧ c ≤ hi then k rest else none
    | .str pat => if starts_with_chars pat s then k (s.drop pat.length) else none
    | .seq a b => re_match fuel a s (fun s1 => re_match fuel b s1 k)
    | .alt a b =>
      match re_match fuel a s k with
      | some r => some r
      | none => re_match fuel b s k
    | .opt a =>
      match re_match fuel a s k with
      | some r => some r
      | none => k s
    | .star a =>
      match re_match fuel a s (fun s1 =>
          if s1.length < s.length then re_match fuel (.star a) s1 k else none) with
      | some r => some r
      | none => k s
    | .eos =>
      match s with
      | [] => k []
      | _ => none

/-- re.search scanning: try every start position from left to right and
return the span (start, stop) of the first position admitting a
match. -/
def re_search_aux (re : Re) : List Char → Nat → Option (Nat × Nat)
  | [], pos =>
    match re_match 1000 re [] some with
    | some _ => some (pos, pos)
    | none => none
  | c :: tail, pos =>
    match re_match 1000 re (c :: tail) some with
    | some rest => some (pos, pos + ((c :: tail).length - rest.length))
    | none => re_search_aux re tail (pos + 1)

/-- re.search over a whole character list. -/
def re_search (re : Re) (s : List Char) : Option (Nat × Nat) :=
  re_search_aux re s 0

/-- One decimal digit. -/
def digit_re : Re := .range '0' '9'

/-- Python's \s class. -/
def ws_chars : List Char := [' ', '\t', '\n', '\r', Char.ofNat 11, Char.ofNat 12]

/-- One whitespace character. -/
def ws_re : Re := .cset ws_chars

/-- The regex piece X{1,2}, greedy. -/
def rep12 (a : Re) : Re := .seq a (.opt a)

/-- The regex piece X{1,3}, greedy. -/
def rep13 (a : Re) : Re := .seq a (.opt (.seq a (.opt a)))

/-- The regex piece X{2,4}, greedy. -/
def rep24 (a : Re) : Re := .seq a (.seq a (.opt (.seq a (.opt a))))

/-- Date separator class of src/transaction_parser.py. -/
def datesep_re : Re := .cset ['/', '-']

/-- Month-name alternation (?:Jan|Feb|...|Dec), in source order. -/
def month_re : Re :=
  .alt (.str "Jan".data) (.alt (.str "Feb".data) (.alt (.str "Mar".data)
    (.alt (.str "Apr".data) (.alt (.str "May".data) (.alt (.str "Jun".data)
    (.alt (.str "Jul".data) (.alt (.str "Aug".data) (.alt (.str "Sep".data)
    (.alt (.str "Oct".data) (.alt (.str "Nov".data) (.str "Dec".data)))))))))))

/-- TransactionParser.DATE_PATTERNS entry 1: one or two digits, a slash
or dash separator, one or two digits, a separator, two to four
digits. -/
def date_pat1 : Re :=
  .seq (rep12 digit_re) (.seq datesep_re (.seq (rep12 digit_re)
    (.seq datesep_re (rep24 digit_re))))

/-- TransactionParser.DATE_PATTERNS entry 2: four digits, a separator,
one or two digits, a separator, one or two digits. -/
def date_pat2 : Re :=
  .seq digit_re (.seq digit_re (.seq digit_re (.seq digit_re
    (.seq datesep_re (.seq (rep12 digit_re) (.seq datesep_re (rep12 digit_re)))))))

/-- TransactionParser.DATE_PATTERNS entry 3:
\d{1,2}\s+(?:Jan|...|Dec)[a-z]*\s+\d{2,4}. -/
def date_pat3 : Re :=
  .seq (rep12 digit_re) (.seq (.seq ws_re (.star ws_re))
    (.seq month_re (.seq (.star (.range 'a' 'z'))
      (.seq (.seq ws_re (.star ws_re)) (rep24 digit_re)))))

/-- TransactionParser.DATE_PATTERNS entry 4:
(?:Jan|...|Dec)[a-z]*\s+\d{1,2},?\s+\d{2,4}. -/
def date_pat4 : Re :=
  .seq month_re (.seq (.star (.range 'a' 'z'))
    (.seq (.seq ws_re (.star ws_re)) (.seq (rep12 digit_re)
      (.seq (.opt (.cset [','])) (.seq (.seq ws_re (.star ws_re)) (rep24 digit_re))))))

/-- Combined date regex of TransactionParser (alternation in declared
order). -/
def date_re : Re := .alt date_pat1 (.alt date_pat2 (.alt date_pat3 date_pat4))

/-- Number body \d{1,3}(?:,\d{3})*(?:\.\d{2})? shared by the amount
patterns. -/
def number_re : Re :=
  .seq (rep13 digit_re)
    (.seq (.star (.seq (.cset [',']) (.seq digit_re (.seq digit_re digit_re))))
      (.opt (.seq (.cset ['.']) (.seq digit_re digit_re))))

/-- TransactionParser.AMOUNT_PATTERNS entry 1: a currency symbol,
optional spaces, then the number. -/
def amount_pat1 : Re :=
  .seq (.cset ['$', '€', '£', '¥', '₹']) (.seq (.star ws_re) number_re)

/-- TransactionParser.AMOUNT_PATTERNS entry 2: the number followed by a
currency code. -/
def amount_pat2 : Re :=
  .seq number_re (.seq (.star ws_re)
    (.alt (.str "USD".data) (.alt (.str "EUR".data) (.alt (.str "GBP".data)
      (.alt (.str "INR".data) (.str "RS".data))))))

/-- TransactionParser.AMOUNT_PATTERNS entry 3: a bare number. -/
def amount_pat3 : Re := number_re

/-- Combined amount regex of TransactionParser (alternation in declared
order: currency-prefixed, currency-suffixed, bare). -/
def amount_re : Re := .alt amount_pat1 (.alt amount_pat2 amount_pat3)

/-- Python slice line[a:b]: characters from position a up to b
(empty when a is at or past b). -/
def str_slice (s : List Char) (a b : Nat) : List Char := (s.take b).drop a

/-- Transaction-type prefix pattern of TransactionParser._clean_merchant,
anchored at the start: (POS|ATM|ONLINE|DEBIT|CREDIT) then optional
whitespace, case-insensitively (matched on a lowered copy). -/
def merchant_prefix_re : Re :=
  .seq (.alt (.str "pos".data) (.alt (.str "atm".data) (.alt (.str "online".data)
    (.alt (.str "debit".data) (.str "credit".data))))) (.star ws_re)

/-- Legal-suffix pattern of TransactionParser._clean_merchant: required
whitespace, (LLC|INC|CORP|LTD), an optional dot, end of string. -/
def merchant_suffix_re : Re :=
  .seq (.seq ws_re (.star ws_re))
    (.seq (.alt (.str "llc".data) (.alt (.str "inc".data)
      (.alt (.str "corp".data) (.str "ltd".data))))
      (.seq (.opt (.cset ['.'])) .eos))

/-- re.sub of the anchored prefix pattern with the empty string:
IGNORECASE is modelled by matching on the lowered copy and slicing the
original. -/
def sub_merchant_lead (m : List Char) : List Char :=
  match re_match 1000 merchant_prefix_re (m.map Char.toLower) some with
  | some rest => m.drop (m.length - rest.length)
  | none => m

/-- re.sub of the end-anchored suffix pattern with the empty string. -/
def sub_merchant_suffix (m : List Char) : List Char :=
  match re_search merchant_suffix_re (m.map Char.toLower) with
  | some (a, _) => m.take a
  | none => m

/-- Python str.split() of a whitespace run at the front. -/
def is_space (c : Char) : Bool := ws_chars.contains c

/-- Python str.split() worker: collect the current word (reversed) and
emit it at each whitespace run. -/
def split_ws_aux : List Char → List Char → List (List Char)
  | [], acc => if acc.isEmpty then [] else [acc.reverse]
  | c :: rest, acc =>
    if is_space c then
      if acc.isEmpty then split_ws_aux rest []
      else acc.reverse :: split_ws_aux rest []
    else split_ws_aux rest (c :: acc)

/-- Python str.split(): maximal runs of non-whitespace characters. -/
def split_ws (s : List Char) : List (List Char) := split_ws_aux s []

/-- The ' '.join of the split words. -/
def join_spaces : List (List Char) → List Char
  | [] => []
  | [w] => w
  | w :: ws => w ++ ' ' :: join_spaces ws

/-- TransactionParser._clean_merchant (src/transaction_parser.py lines
108-117): strip a transaction-type prefix, strip a legal-entity suffix,
normalize whitespace. -/
def clean_merchant (m : List Char) : List Char :=
  join_spaces (split_ws (sub_merchant_suffix (sub_merchant_lead m)))

/-- Row dictionary produced by TransactionParser._parse_line: the raw
matched date and amount substrings, the cleaned merchant text between
them, and the whole line as description. -/
structure RawTx where
  date : String
  merchant : String
  amount : String
  description : String
deriving DecidableEq, Repr

/-- TransactionParser._parse_line (src/transaction_parser.py lines
67-106): search the combined date regex, then the combined amount regex,
both over the whole line; fail (None) if either is absent; the merchant
is the slice between the END of the date match and the START of the
amount match, cleaned. -/
def parse_line (line : String) : Option RawTx :=
  match re_search date_re line.data with
  | none => none
  | some (ds, de) =>
    match re_search amount_re line.data with
    | none => none
    | some (a0, a1) =>
      some ⟨⟨str_slice line.data ds de⟩, ⟨clean_merchant (str_slice line.data de a0)⟩,
        ⟨str_slice line.data a0 a1⟩, line⟩

/-- Value of a digit run. -/
def digits_to_nat (ds : List Char) : Nat :=
  ds.foldl (fun acc c => acc * 10 + (c.toNat - 48)) 0

/-- Python float() on the post-cleanup amount strings: an optional
minus sign, then digits with at most one decimal point and at least one
digit; anything else raises (none). -/
def parse_float_chars (s : List Char) : Option ℚ :=
  let neg := match s with
    | '-' :: _ => true
    | _ => false
  let s1 := match s with
    | '-' :: rest => rest
    | _ => s
  let int_part := s1.takeWhile Char.isDigit
  let rest1 := s1.dropWhile Char.isDigit
  match rest1 with
  | [] =>
    if int_part.isEmpty then none
    else some ((if neg then -1 else 1) * (digits_to_nat int_part : ℚ))
  | '.' :: frac =>
    if frac.all Char.isDigit && !(int_part.isEmpty && frac.isEmpty) then
      some ((if neg then -1 else 1) *
        ((digits_to_nat int_part : ℚ) + (digits_to_nat frac : ℚ) / 10 ^ frac.length))
    else none
  | _ => none

/-- TransactionParser._parse_amount (src/transaction_parser.py lines
167-186): drop every character outside digits, comma, dot and minus,
drop the commas, parse as a float, 0.0 on failure. -/
def parse_amount (s : String) : ℚ :=
  match parse_float_chars ((s.data.filter (fun c =>
      c.isDigit || c == ',' || c == '.' || c == '-')).filter (fun c => !(c == ','))) with
  | some q => q
  | none => 0

/-- TransactionCategorizer.CATEGORY_KEYWORDS (src/categorizer.py lines
15-92), in declared order. -/
def default_category_keywords : List (String × List String) :=
  [("Food & Dining",
    ["restaurant", "cafe", "coffee", "starbucks", "pizza", "burger",
     "mcdonald", "subway", "chipotle", "domino", "taco", "kfc",
     "wendy", "dunkin", "bakery", "diner", "grill", "kitchen",
     "bar", "pub", "bistro", "food", "dining", "eatery", "doordash",
     "ubereats", "grubhub", "zomato", "swiggy", "delivery"]),
   ("Groceries",
    ["supermarket", "grocery", "walmart", "target", "costco",
     "safeway", "kroger", "albertsons", "whole foods", "trader joe",
     "aldi", "market", "fresh", "organic", "produce", "mart"]),
   ("Transportation",
    ["gas", "fuel", "shell", "chevron", "exxon", "bp", "mobil",
     "uber", "lyft", "taxi", "cab", "transit", "metro", "bus",
     "train", "parking", "toll", "transportation", "airline",
     "flight", "airport"]),
   ("Shopping",
    ["amazon", "ebay", "etsy", "shop", "store", "mall", "retail",
     "clothing", "apparel", "fashion", "shoes", "accessories",
     "electronics", "best buy", "apple store", "outlet", "boutique"]),
   ("Entertainment",
    ["movie", "cinema", "theater", "netflix", "hulu", "spotify",
     "disney", "hbo", "prime video", "youtube", "gaming", "steam",
     "playstation", "xbox", "concert", "event", "tickets", "ticketmaster"]),
   ("Utilities",
    ["electric", "electricity", "power", "gas company", "water",
     "sewer", "internet", "phone", "verizon", "at&t", "t-mobile",
     "sprint", "comcast", "spectrum", "utility", "bill"]),
   ("Healthcare",
    ["pharmacy", "cvs", "walgreens", "doctor", "hospital", "clinic",
     "medical", "dental", "dentist", "health", "wellness", "urgent care",
     "lab", "prescription", "medicine", "drug"]),
   ("Rent/Housing",
    ["rent", "lease", "apartment", "property", "landlord", "housing",
     "mortgage", "hoa", "home", "real estate", "realty"]),
   ("Insurance",
    ["insurance", "premium", "policy", "geico", "progressive",
     "state farm", "allstate", "coverage"]),
   ("Education",
    ["school", "university", "college", "tuition", "book", "course",
     "education", "learning", "academy", "institute", "udemy",
     "coursera", "textbook"]),
   ("Subscriptions",
    ["subscription", "monthly", "membership", "annual", "renew",
     "gym", "fitness", "planet fitness", "24 hour", "crunch",
     "adobe", "microsoft", "office 365", "dropbox", "icloud"]),
   ("Personal Care",
    ["salon", "spa", "barber", "haircut", "beauty", "cosmetic",
     "makeup", "skincare", "massage", "nail", "grooming"]),
   ("Financial",
    ["bank", "atm", "fee", "charge", "interest", "transfer",
     "payment", "withdrawal", "deposit"]),
   ("Charity",
    ["donation", "charity", "foundation", "nonprofit", "church",
     "temple", "mosque", "giving", "fundraiser"]),
   ("Travel",
    ["hotel", "motel", "resort", "booking", "airbnb", "hostel",
     "marriott", "hilton", "hyatt", "expedia", "travel", "vacation"]),
   ("Pet Care",
    ["pet", "vet", "veterinary", "petsmart", "petco", "grooming",
     "animal", "dog", "cat"])]

/-- C5, evaluated at the claim's input. The date regex matches
"01/15/2024" (span 0-10, parsing to 2024-01-15), and a transaction IS
produced, but the amount regex's bare-number alternative already matches
the leading "01" of the date at position 0 (re.search prefers the
leftmost position over the later currency-prefixed "$45.99"), so the
row's amount string is "01" — float 1.0, not 45.99 — and the merchant
slice line[10:0] is empty rather than "Amazon.com". Categorizing the
claimed payee "Amazon.com" under the default keyword configuration does
give "Shopping", as the claim states. -/
theorem claim_amazon_line_evaluation :
    parse_line "01/15/2024  Amazon.com   $45.99" =
      some { date := "01/15/2024", merchant := "", amount := "01",
             description := "01/15/2024  Amazon.com   $45.99" } ∧
    parse_amount "01" = 1 ∧
    parse_amount "45.99" = 4599 / 100 ∧
    categorize_transaction default_category_keywords "Amazon.com" "" = "Shopping" := by
  refine ⟨by decide, ?_, ?_, by decide⟩
  · have hfilter : (("01".data.filter (fun c =>
        c.isDigit || c == ',' || c == '.' || c == '-')).filter (fun c => !(c == ','))) =
        ['0', '1'] := by decide
    have h : parse_float_chars ['0', '1'] = some ((1 : ℚ) * ((1 : Nat) : ℚ)) := rfl
    unfold parse_amount
    rw [hfilter, h]
    show (1 : ℚ) * ((1 : Nat) : ℚ) = 1
    norm_num
  · have hfilter : (("45.99".data.filter (fun c =>
        c.isDigit || c == ',' || c == '.' || c == '-')).filter (fun c => !(c == ','))) =
        ['4', '5', '.', '9', '9'] := by decide
    have h : parse_float_chars ['4', '5', '.', '9', '9'] =
        some ((1 : ℚ) * (((45 : Nat) : ℚ) + ((99 : Nat) : ℚ) / 10 ^ (2 : Nat))) := rfl
    unfold parse_amount
    rw [hfilter, h]
    show (1 : ℚ) * (((45 : Nat) : ℚ) + ((99 : Nat) : ℚ) / 10 ^ (2 : Nat)) = 4599 / 100
    norm_num
